import Mathlib

/-!
Verification of the `raystack_blocking` crate: a synchronous (blocking)
facade over the asynchronous `raystack` SkySpark client.

The facade itself (`src/lib.rs`, `src/utils.rs`) is embedded directly from
the source.  The external collaborators it drives — the Tokio runtime, the
`url` parser, and the asynchronous `raystack` protocol client together with
its Grid codec — are not part of this repository's `src/` tree and are
modelled from the specification, as marked in the doc comments below.
-/

namespace RaystackBlocking

/-! ### Haystack scalar types (modelled from the spec, §3 Value model) -/

/-- Numeric magnitude of a Haystack `Number`: a finite rational, or one of
the special sentinel values (positive/negative infinity, not-a-number). -/
inductive NumVal where
  | finite (q : ℚ)
  | posInf
  | negInf
  | nan
deriving DecidableEq, Repr

/-- A Haystack number: numeric magnitude plus an optional unit string. -/
structure Number where
  val : NumVal
  unit : Option String
deriving DecidableEq, Repr

/-- A calendar date (year/month/day). -/
structure Date where
  year : Int
  month : Nat
  day : Nat
deriving DecidableEq, Repr

/-- A time of day (hour/minute/second/fraction). -/
structure Time where
  hour : Nat
  minute : Nat
  second : Nat
  fraction : Nat
deriving DecidableEq, Repr

/-- A zoned date-time: date, time, explicit UTC offset (in minutes) and a
separate timezone name, per the spec's DateTime encoding rules. -/
structure DateTime where
  date : Date
  time : Time
  utcOffsetMinutes : Int
  timeZoneName : String
deriving DecidableEq, Repr

/-- An absolute UTC instant (models `chrono::DateTime<Utc>`). -/
structure UtcInstant where
  nanosSinceEpoch : Int
deriving DecidableEq, Repr

/-- A Haystack record reference identifier (models `raystack::Ref`). -/
structure Ref where
  id : String
deriving DecidableEq, Repr

/-- A parsed URL (models `url::Url`; parsing itself is an external
collaborator, kept abstract in the environment below). -/
structure Url where
  raw : String
deriving DecidableEq, Repr

/-- A history read range (models `raystack::HisReadRange`, from the spec:
single date, date span, absolute instant span, or today/yesterday). -/
inductive HisReadRange where
  | today
  | yesterday
  | date (d : Date)
  | dateSpan (start stop : Date)
  | dateTimeSpan (start stop : DateTime)
deriving DecidableEq, Repr

/-! ### The Value model and Grids (modelled from the spec, §3) -/

/-- A Haystack value: the closed set of scalar variants plus the three
container forms (list, dict, nested grid).  A grid is an ordered list of
grid-metadata entries, an ordered list of column definitions (column name
plus column metadata) and an ordered list of rows (each row a sparse
dict of present cells). -/
inductive Value where
  | marker
  | removeMarker
  | na
  | bool (b : Bool)
  | number (n : NumVal) (unit : Option String)
  | str (s : String)
  | ref (id : String) (dis : Option String)
  | date (d : Date)
  | time (t : Time)
  | dateTime (dt : DateTime)
  | uri (u : String)
  | coord (lat lng : ℚ)
  | xstr (xtype : String) (xval : String)
  | symbol (s : String)
  | list (xs : List Value)
  | dict (entries : List (String × Value))
  | grid (meta : List (String × Value)) (cols : List (String × List (String × Value)))
      (rows : List (List (String × Value)))
deriving Repr

/-- A Haystack Grid: grid-level metadata, ordered column definitions and
ordered rows of sparse cells (models `raystack::Grid`). -/
structure Grid where
  meta : List (String × Value)
  cols : List (String × List (String × Value))
  rows : List (List (String × Value))
deriving Repr

/-! ### Errors (modelled from the spec, §7 error taxonomy) -/

/-- The unified operation error type (models `raystack::Error`): an
authentication failure, a transport failure, a codec failure, or a
server-reported error grid. -/
inductive Error where
  | auth (msg : String)
  | transport (msg : String)
  | codec (msg : String)
  | server (errGrid : Grid)

/-- Mirrors the source's `type Result<T> = std::result::Result<T, Error>`. -/
abbrev Result (α : Type) : Type := Except Error α

/-- Error produced when constructing a client fails (models
`raystack::NewSkySparkClientError`): the handshake failed or the
transport failed during construction. -/
inductive NewSkySparkClientError where
  | auth (msg : String)
  | transport (msg : String)

/-! ### The execution context (modelled from the spec, §5 and §6):
a Tokio runtime consumed as a "run a unit of asynchronous work to
completion" capability. -/

/-- An asynchronous computation that has been fully determined by the
environment (the server's responses are fixed): it suspends `steps`
times and then yields `result`.  Driving it to completion yields the
result regardless of the number of suspensions. -/
structure Future (α : Type) where
  steps : Nat
  result : α

/-- The execution context (models `tokio::runtime::Runtime`); `submitted`
counts how many units of asynchronous work have been driven to
completion on it. -/
structure Runtime where
  submitted : Nat

/-- Shared reference-counted ownership (models `std::sync::Arc`). -/
structure Arc (α : Type) where
  val : α

/-- Mirrors `rt.block_on(fut)`: drive the asynchronous work to completion,
returning its result; exactly one unit of work is submitted. -/
def Arc.blockOn {α : Type} (rt : Arc Runtime) (fut : Future α) : α × Arc Runtime :=
  (fut.result, ⟨⟨rt.val.submitted + 1⟩⟩)

/-! ### The asynchronous protocol client (modelled from the spec, §4.3) -/

/-- Modelled from the spec: the asynchronous Protocol Client
(`raystack::SkySparkClient`), which is a dependency, not part of this
repository's `src/` tree.  It holds the authenticated session state
(project name and base URL) and exposes one asynchronous operation per
Haystack operation; with the server's responses fixed, each operation is
the asynchronous computation it produces for given arguments.  Per the
spec (§3 Lifecycle, §5), the session state is never mutated after
construction. -/
structure ProtocolClient where
  projectName : String
  projectApiUrl : Url
  aboutOp : Future (Result Grid)
  formatsOp : Future (Result Grid)
  opsOp : Future (Result Grid)
  navOp : Option Ref → Future (Result Grid)
  readOp : String → Option Nat → Future (Result Grid)
  readByIdsOp : List Ref → Future (Result Grid)
  evalOp : String → Future (Result Grid)
  hisReadOp : Ref → HisReadRange → Future (Result Grid)
  hisWriteBoolOp : Ref → List (DateTime × Bool) → Future (Result Grid)
  hisWriteNumOp : Ref → List (DateTime × Number) → Future (Result Grid)
  hisWriteStrOp : Ref → List (DateTime × String) → Future (Result Grid)
  utcHisWriteBoolOp : Ref → String → List (UtcInstant × Bool) → Future (Result Grid)
  utcHisWriteNumOp : Ref → String → List (UtcInstant × Number) → Future (Result Grid)
  utcHisWriteStrOp : Ref → String → List (UtcInstant × String) → Future (Result Grid)

/-! ### The blocking facade (embedded from `src/lib.rs`) -/

/-- Mirrors `pub struct SkySparkClient { client: raystack::SkySparkClient,
rt: Arc<Runtime> }`. -/
structure SkySparkClient where
  client : ProtocolClient
  rt : Arc Runtime

/-- Mirrors `pub fn project_name(&self) -> &str`. -/
def SkySparkClient.project_name (self : SkySparkClient) : String :=
  self.client.projectName

/-- Mirrors `pub fn project_api_url(&self) -> &Url`. -/
def SkySparkClient.project_api_url (self : SkySparkClient) : Url :=
  self.client.projectApiUrl

/-- Mirrors `pub fn about(&mut self) -> Result<Grid>`:
`self.rt.block_on(self.client.about())`. -/
def SkySparkClient.about (self : SkySparkClient) : Result Grid × SkySparkClient :=
  let p := self.rt.blockOn self.client.aboutOp
  (p.1, { self with rt := p.2 })

/-- Mirrors `pub fn formats(&mut self) -> Result<Grid>`. -/
def SkySparkClient.formats (self : SkySparkClient) : Result Grid × SkySparkClient :=
  let p := self.rt.blockOn self.client.formatsOp
  (p.1, { self with rt := p.2 })

/-- Mirrors `pub fn his_read(&mut self, id, range) -> Result<Grid>`. -/
def SkySparkClient.his_read (self : SkySparkClient) (id : Ref) (range : HisReadRange) :
    Result Grid × SkySparkClient :=
  let p := self.rt.blockOn (self.client.hisReadOp id range)
  (p.1, { self with rt := p.2 })

/-- Mirrors `pub fn his_write_bool(&mut self, id, his_data) -> Result<Grid>`. -/
def SkySparkClient.his_write_bool (self : SkySparkClient) (id : Ref)
    (his_data : List (DateTime × Bool)) : Result Grid × SkySparkClient :=
  let p := self.rt.blockOn (self.client.hisWriteBoolOp id his_data)
  (p.1, { self with rt := p.2 })

/-- Mirrors `pub fn his_write_num(&mut self, id, his_data) -> Result<Grid>`. -/
def SkySparkClient.his_write_num (self : SkySparkClient) (id : Ref)
    (his_data : List (DateTime × Number)) : Result Grid × SkySparkClient :=
  let p := self.rt.blockOn (self.client.hisWriteNumOp id his_data)
  (p.1, { self with rt := p.2 })

/-- Mirrors `pub fn his_write_str(&mut self, id, his_data) -> Result<Grid>`. -/
def SkySparkClient.his_write_str (self : SkySparkClient) (id : Ref)
    (his_data : List (DateTime × String)) : Result Grid × SkySparkClient :=
  let p := self.rt.blockOn (self.client.hisWriteStrOp id his_data)
  (p.1, { self with rt := p.2 })

/-- Mirrors `pub fn utc_his_write_bool(&mut self, id, time_zone_name, his_data)`. -/
def SkySparkClient.utc_his_write_bool (self : SkySparkClient) (id : Ref)
    (time_zone_name : String) (his_data : List (UtcInstant × Bool)) :
    Result Grid × SkySparkClient :=
  let p := self.rt.blockOn (self.client.utcHisWriteBoolOp id time_zone_name his_data)
  (p.1, { self with rt := p.2 })

/-- Mirrors `pub fn utc_his_write_num(&mut self, id, time_zone_name, his_data)`. -/
def SkySparkClient.utc_his_write_num (self : SkySparkClient) (id : Ref)
    (time_zone_name : String) (his_data : List (UtcInstant × Number)) :
    Result Grid × SkySparkClient :=
  let p := self.rt.blockOn (self.client.utcHisWriteNumOp id time_zone_name his_data)
  (p.1, { self with rt := p.2 })

/-- Mirrors `pub fn utc_his_write_str(&mut self, id, time_zone_name, his_data)`. -/
def SkySparkClient.utc_his_write_str (self : SkySparkClient) (id : Ref)
    (time_zone_name : String) (his_data : List (UtcInstant × String)) :
    Result Grid × SkySparkClient :=
  let p := self.rt.blockOn (self.client.utcHisWriteStrOp id time_zone_name his_data)
  (p.1, { self with rt := p.2 })

/-- Mirrors `pub fn nav(&mut self, nav_id: Option<&Ref>) -> Result<Grid>`. -/
def SkySparkClient.nav (self : SkySparkClient) (nav_id : Option Ref) :
    Result Grid × SkySparkClient :=
  let p := self.rt.blockOn (self.client.navOp nav_id)
  (p.1, { self with rt := p.2 })

/-- Mirrors `pub fn ops(&mut self) -> Result<Grid>`. -/
def SkySparkClient.ops (self : SkySparkClient) : Result Grid × SkySparkClient :=
  let p := self.rt.blockOn self.client.opsOp
  (p.1, { self with rt := p.2 })

/-- Mirrors `pub fn read(&mut self, filter: &str, limit: Option<u64>)`. -/
def SkySparkClient.read (self : SkySparkClient) (filter : String) (limit : Option Nat) :
    Result Grid × SkySparkClient :=
  let p := self.rt.blockOn (self.client.readOp filter limit)
  (p.1, { self with rt := p.2 })

/-- Mirrors `pub fn read_by_ids(&mut self, ids: &[Ref]) -> Result<Grid>`. -/
def SkySparkClient.read_by_ids (self : SkySparkClient) (ids : List Ref) :
    Result Grid × SkySparkClient :=
  let p := self.rt.blockOn (self.client.readByIdsOp ids)
  (p.1, { self with rt := p.2 })

/-- Mirrors `pub fn eval(&mut self, axon_expr: &str) -> Result<Grid>`. -/
def SkySparkClient.eval (self : SkySparkClient) (axon_expr : String) :
    Result Grid × SkySparkClient :=
  let p := self.rt.blockOn (self.client.evalOp axon_expr)
  (p.1, { self with rt := p.2 })

/-! ### Packaging all facade operations for uniform statements -/

/-- One constructor per public facade operation, carrying that
operation's argument tuple. -/
inductive Op where
  | about
  | formats
  | ops
  | nav (nav_id : Option Ref)
  | read (filter : String) (limit : Option Nat)
  | read_by_ids (ids : List Ref)
  | eval (axon_expr : String)
  | his_read (id : Ref) (range : HisReadRange)
  | his_write_bool (id : Ref) (his_data : List (DateTime × Bool))
  | his_write_num (id : Ref) (his_data : List (DateTime × Number))
  | his_write_str (id : Ref) (his_data : List (DateTime × String))
  | utc_his_write_bool (id : Ref) (tz : String) (his_data : List (UtcInstant × Bool))
  | utc_his_write_num (id : Ref) (tz : String) (his_data : List (UtcInstant × Number))
  | utc_his_write_str (id : Ref) (tz : String) (his_data : List (UtcInstant × String))

/-- Dispatch an operation to the corresponding facade method. -/
def SkySparkClient.run (self : SkySparkClient) : Op → Result Grid × SkySparkClient
  | .about => self.about
  | .formats => self.formats
  | .ops => self.ops
  | .nav nav_id => self.nav nav_id
  | .read filter limit => self.read filter limit
  | .read_by_ids ids => self.read_by_ids ids
  | .eval axon_expr => self.eval axon_expr
  | .his_read id range => self.his_read id range
  | .his_write_bool id d => self.his_write_bool id d
  | .his_write_num id d => self.his_write_num id d
  | .his_write_str id d => self.his_write_str id d
  | .utc_his_write_bool id tz d => self.utc_his_write_bool id tz d
  | .utc_his_write_num id tz d => self.utc_his_write_num id tz d
  | .utc_his_write_str id tz d => self.utc_his_write_str id tz d

/-- The asynchronous computation the Protocol Client produces for an
operation and its arguments. -/
def ProtocolClient.asyncOp (c : ProtocolClient) : Op → Future (Result Grid)
  | .about => c.aboutOp
  | .formats => c.formatsOp
  | .ops => c.opsOp
  | .nav nav_id => c.navOp nav_id
  | .read filter limit => c.readOp filter limit
  | .read_by_ids ids => c.readByIdsOp ids
  | .eval axon_expr => c.evalOp axon_expr
  | .his_read id range => c.hisReadOp id range
  | .his_write_bool id d => c.hisWriteBoolOp id d
  | .his_write_num id d => c.hisWriteNumOp id d
  | .his_write_str id d => c.hisWriteStrOp id d
  | .utc_his_write_bool id tz d => c.utcHisWriteBoolOp id tz d
  | .utc_his_write_num id tz d => c.utcHisWriteNumOp id tz d
  | .utc_his_write_str id tz d => c.utcHisWriteStrOp id tz d

/-! ### Construction (embedded from `src/lib.rs` and `src/utils.rs`) -/

/-- Modelled from the spec: the external collaborators construction relies
on, none of which are part of this repository's `src/` tree — the `url`
crate's parser, Tokio runtime creation (`Runtime::new`, which can fail
with an I/O error), and the asynchronous `raystack` client construction
(`raystack::SkySparkClient::new_with_client`, which performs the §4.2
authentication handshake and yields a ready protocol client or fails). -/
structure Env where
  urlParse : String → Except String Url
  runtimeNew : Except String Runtime
  newWithClient : Url → String → String → Future (Except NewSkySparkClientError ProtocolClient)

/-- The outcome of running a fallible Rust function that may also panic:
the thread panics with a message, or the function returns an error value,
or it returns successfully. -/
inductive Outcome (ε α : Type) where
  | panicked (msg : String)
  | err (e : ε)
  | ok (a : α)

/-- Lift an ordinary `Except` result into an `Outcome` (no panic). -/
def Outcome.ofExcept {ε α : Type} : Except ε α → Outcome ε α
  | .error e => .err e
  | .ok a => .ok a

/-- Mirrors `pub fn new_with_runtime(project_api_url, username, password, rt)`:
build the transport client, drive `raystack::SkySparkClient::new_with_client`
to completion on the supplied shared runtime (the `?` operator propagates
its error), and wrap the resulting protocol client with the runtime. -/
def SkySparkClient.new_with_runtime (env : Env) (project_api_url : Url)
    (username password : String) (rt : Arc Runtime) :
    Except NewSkySparkClientError SkySparkClient :=
  let p := rt.blockOn (env.newWithClient project_api_url username password)
  match p.1 with
  | .error e => .error e
  | .ok client => .ok { client := client, rt := p.2 }

/-- Mirrors `pub fn new(project_api_url, username, password)`:
`Runtime::new().expect("could not create a new Tokio runtime")` — a runtime
creation failure panics — then delegates to `new_with_runtime` with the
fresh runtime wrapped in an `Arc`. -/
def SkySparkClient.new (env : Env) (project_api_url : Url)
    (username password : String) : Outcome NewSkySparkClientError SkySparkClient :=
  match env.runtimeNew with
  | .error _ => .panicked "could not create a new Tokio runtime"
  | .ok rt => Outcome.ofExcept (SkySparkClient.new_with_runtime env project_api_url
      username password (Arc.mk rt))

/-- Models `Box<dyn Error>` as produced by `new_client`'s two `?` sites:
either the URL parse error or the client construction error. -/
inductive BoxError where
  | urlErr (e : String)
  | clientErr (e : NewSkySparkClientError)

/-- Mirrors `pub fn new_client(project_api_url, username, password)` from
`src/utils.rs`: parse the URL (propagating a parse failure), construct the
client via `SkySparkClient::new` (propagating its failure, and a panic
unwinds through), and return the client. -/
def new_client (env : Env) (project_api_url username password : String) :
    Outcome BoxError SkySparkClient :=
  match env.urlParse project_api_url with
  | .error e => .err (.urlErr e)
  | .ok url =>
    match SkySparkClient.new env url username password with
    | .panicked m => .panicked m
    | .err e => .err (.clientErr e)
    | .ok client => .ok client

/-! ### Tag names and well-formed (representable) values

Modelled from the spec (§3, §8): tag names start with a lowercase letter
followed by letters, digits or underscores; dict keys and column names are
tag names; every tag name in a row appears among the column definitions.
A representable grid is one in wire-canonical form: each row's cells are
stored sparsely in column order, as every grid arriving from or sent on
the wire is. -/

/-- Characters allowed after the first character of a tag name. -/
def isTagChar (c : Char) : Bool := c.isAlphanum || c = '_'

/-- Decides the Haystack tag-name grammar: nonempty, starts with a
lowercase letter, remaining characters letters/digits/underscore. -/
def isTagName (s : String) : Bool :=
  match s.data with
  | [] => false
  | c :: cs => c.isLower && cs.all isTagChar

/-- Decides that a row is a sparse selection of cells in column order:
each row key matches the next column it belongs to, keys occur in column
order without duplicates, and no key falls outside the column list. -/
def sparseRow : List (String × List (String × Value)) → List (String × Value) → Bool
  | _, [] => true
  | [], _ :: _ => false
  | (n, _) :: cs, (k, v) :: es =>
    if k = n then sparseRow cs es else sparseRow cs ((k, v) :: es)

mutual

/-- Decides that a value is representable: all dict keys, grid metadata
keys, column names, column metadata keys and row keys satisfy the
tag-name grammar, and every grid's rows are sparse cells in column
order. -/
def wfVal : Value → Bool
  | .list xs => wfElems xs
  | .dict es => wfEntries es
  | .grid m c r => wfEntries m && wfCols c && wfRows c r
  | _ => true

/-- Well-formedness of a list of values. -/
def wfElems : List Value → Bool
  | [] => true
  | x :: xs => wfVal x && wfElems xs

/-- Well-formedness of dict entries: tag-name keys, well-formed values. -/
def wfEntries : List (String × Value) → Bool
  | [] => true
  | (k, v) :: es => isTagName k && wfVal v && wfEntries es

/-- Well-formedness of column definitions. -/
def wfCols : List (String × List (String × Value)) → Bool
  | [] => true
  | (n, meta) :: cs => isTagName n && wfEntries meta && wfCols cs

/-- Well-formedness of rows against the column definitions. -/
def wfRows (cols : List (String × List (String × Value))) :
    List (List (String × Value)) → Bool
  | [] => true
  | r :: rs => sparseRow cols r && wfEntries r && wfRows cols rs

end

/-- A representable grid (spec §3 invariants, wire-canonical rows). -/
def Grid.wf (g : Grid) : Bool := wfVal (.grid g.meta g.cols g.rows)

/-! ### The Hayson (JSON) wire encoding

Modelled from the spec (§4.1): the Grid Codec is part of the `raystack`
dependency, absent from this repository's `src/` tree.  The wire
representation is modelled at the JSON-structure level (serialisation of
JSON text itself is the external serde layer); scalar sentinels use a
`_kind` discriminator field, special numeric values use dedicated string
sentinels rather than numeric literals, date-times carry an explicit UTC
offset plus a separate timezone-name field, and decoding is strict:
unrecognised sentinels or malformed literals fail, and nothing is
silently defaulted. -/

/-- A JSON document. -/
inductive Json where
  | null
  | bool (b : Bool)
  | num (q : ℚ)
  | str (s : String)
  | arr (xs : List Json)
  | obj (fields : List (String × Json))

/-- Encode an integer as a JSON number. -/
def jsonInt (i : Int) : Json := .num (i : ℚ)

/-- Encode a natural number as a JSON number. -/
def jsonNat (n : Nat) : Json := .num (n : ℚ)

/-- Strictly decode a JSON number as an integer. -/
def jToInt : Json → Except String Int
  | .num q => if q.den = 1 then .ok q.num else .error "expected an integer"
  | _ => .error "expected a number"

/-- Strictly decode a JSON number as a natural number. -/
def jToNat (j : Json) : Except String Nat :=
  match jToInt j with
  | .error e => .error e
  | .ok i => if 0 ≤ i then .ok i.toNat else .error "expected a nonnegative integer"

/-- Encode a numeric magnitude: finite values as numeric literals, the
special values as dedicated string sentinels. -/
def encNumVal : NumVal → Json
  | .finite q => .num q
  | .posInf => .str "INF"
  | .negInf => .str "-INF"
  | .nan => .str "NaN"

/-- Decode a numeric magnitude. -/
def decNumVal : Json → Except String NumVal
  | .num q => .ok (.finite q)
  | .str "INF" => .ok .posInf
  | .str "-INF" => .ok .negInf
  | .str "NaN" => .ok .nan
  | _ => .error "malformed number value"

/-- Encode a date as a `_kind`-tagged object. -/
def encDateObj (d : Date) : Json :=
  .obj [("_kind", .str "date"), ("year", jsonInt d.year), ("month", jsonNat d.month),
    ("day", jsonNat d.day)]

/-- Encode a time as a `_kind`-tagged object. -/
def encTimeObj (t : Time) : Json :=
  .obj [("_kind", .str "time"), ("hour", jsonNat t.hour), ("minute", jsonNat t.minute),
    ("second", jsonNat t.second), ("fraction", jsonNat t.fraction)]

/-- Decode a date object's fields. -/
def decDateFields (fields : List (String × Json)) : Except String Date :=
  match List.lookup "year" fields, List.lookup "month" fields, List.lookup "day" fields with
  | some jy, some jm, some jd =>
    match jToInt jy, jToNat jm, jToNat jd with
    | .ok y, .ok m, .ok d => .ok ⟨y, m, d⟩
    | _, _, _ => .error "malformed date"
  | _, _, _ => .error "malformed date"

/-- Decode a date from its object form. -/
def decDateObj : Json → Except String Date
  | .obj fields =>
    match List.lookup "_kind" fields with
    | some (.str "date") => decDateFields fields
    | _ => .error "expected a date"
  | _ => .error "expected a date"

/-- Decode a time object's fields. -/
def decTimeFields (fields : List (String × Json)) : Except String Time :=
  match List.lookup "hour" fields, List.lookup "minute" fields,
      List.lookup "second" fields, List.lookup "fraction" fields with
  | some jh, some jm, some js, some jf =>
    match jToNat jh, jToNat jm, jToNat js, jToNat jf with
    | .ok h, .ok m, .ok s, .ok f => .ok ⟨h, m, s, f⟩
    | _, _, _, _ => .error "malformed time"
  | _, _, _, _ => .error "malformed time"

/-- Decode a time from its object form. -/
def decTimeObj : Json → Except String Time
  | .obj fields =>
    match List.lookup "_kind" fields with
    | some (.str "time") => decTimeFields fields
    | _ => .error "expected a time"
  | _ => .error "expected a time"

/-- Encode the optional trailing field for an optional string component. -/
def optStrField (name : String) : Option String → List (String × Json)
  | none => []
  | some s => [(name, .str s)]

mutual

/-- Hayson encoding of a value (spec §4.1 encoding rules). -/
def encH : Value → Json
  | .marker => .obj [("_kind", .str "marker")]
  | .removeMarker => .obj [("_kind", .str "remove")]
  | .na => .obj [("_kind", .str "na")]
  | .bool b => .bool b
  | .number (.finite q) none => .num q
  | .number n unit =>
    .obj ([("_kind", .str "number"), ("val", encNumVal n)] ++ optStrField "unit" unit)
  | .str s => .str s
  | .ref id dis =>
    .obj ([("_kind", .str "ref"), ("val", .str id)] ++ optStrField "dis" dis)
  | .date d => encDateObj d
  | .time t => encTimeObj t
  | .dateTime dt =>
    .obj [("_kind", .str "dateTime"), ("date", encDateObj dt.date),
      ("time", encTimeObj dt.time), ("offset", jsonInt dt.utcOffsetMinutes),
      ("tz", .str dt.timeZoneName)]
  | .uri u => .obj [("_kind", .str "uri"), ("val", .str u)]
  | .coord lat lng => .obj [("_kind", .str "coord"), ("lat", .num lat), ("lng", .num lng)]
  | .xstr xtype xval =>
    .obj [("_kind", .str "xstr"), ("type", .str xtype), ("val", .str xval)]
  | .symbol s => .obj [("_kind", .str "symbol"), ("val", .str s)]
  | .list xs => .arr (encHElems xs)
  | .dict es => .obj (encHEntries es)
  | .grid m c r =>
    .obj [("_kind", .str "grid"), ("meta", .obj (encHEntries m)),
      ("cols", .arr (encHCols c)), ("rows", .arr (encHRows r))]

/-- Hayson encoding of list elements. -/
def encHElems : List Value → List Json
  | [] => []
  | x :: xs => encH x :: encHElems xs

/-- Hayson encoding of dict entries (keys preserved). -/
def encHEntries : List (String × Value) → List (String × Json)
  | [] => []
  | (k, v) :: es => (k, encH v) :: encHEntries es

/-- Hayson encoding of column definitions. -/
def encHCols : List (String × List (String × Value)) → List Json
  | [] => []
  | (n, meta) :: cs =>
    .obj [("name", .str n), ("meta", .obj (encHEntries meta))] :: encHCols cs

/-- Hayson encoding of rows. -/
def encHRows : List (List (String × Value)) → List Json
  | [] => []
  | r :: rs => .obj (encHEntries r) :: encHRows rs

end

mutual

/-- Strict Hayson decoding of a value.  The `fuel` parameter bounds the
recursion depth; the top-level decoder supplies the size of the document,
which always suffices. -/
def decH : Nat → Json → Except String Value
  | 0, _ => .error "recursion limit exceeded"
  | _ + 1, .null => .error "unexpected null"
  | _ + 1, .bool b => .ok (.bool b)
  | _ + 1, .num q => .ok (.number (.finite q) none)
  | _ + 1, .str s => .ok (.str s)
  | f + 1, .arr xs =>
    match decHElems f xs with
    | .error e => .error e
    | .ok vs => .ok (.list vs)
  | f + 1, .obj fields =>
    match List.lookup "_kind" fields with
    | none =>
      match decHEntries f fields with
      | .error e => .error e
      | .ok es => .ok (.dict es)
    | some (.str k) => decHKind f k fields
    | some _ => .error "malformed _kind discriminator"

/-- Decode a `_kind`-tagged Hayson object; an unrecognised sentinel kind
is an error, never silently defaulted. -/
def decHKind (f : Nat) (k : String) (fields : List (String × Json)) :
    Except String Value :=
  match k with
  | "marker" => .ok .marker
  | "remove" => .ok .removeMarker
  | "na" => .ok .na
  | "number" =>
    match List.lookup "val" fields with
    | some jv =>
      match decNumVal jv with
      | .error e => .error e
      | .ok n =>
        match List.lookup "unit" fields with
        | none => .ok (.number n none)
        | some (.str u) => .ok (.number n (some u))
        | some _ => .error "malformed unit"
    | none => .error "number missing val"
  | "ref" =>
    match List.lookup "val" fields with
    | some (.str id) =>
      match List.lookup "dis" fields with
      | none => .ok (.ref id none)
      | some (.str d) => .ok (.ref id (some d))
      | some _ => .error "malformed dis"
    | _ => .error "ref missing val"
  | "date" =>
    match decDateFields fields with
    | .error e => .error e
    | .ok d => .ok (.date d)
  | "time" =>
    match decTimeFields fields with
    | .error e => .error e
    | .ok t => .ok (.time t)
  | "dateTime" =>
    match List.lookup "date" fields, List.lookup "time" fields with
    | some jd, some jt =>
      match decDateObj jd, decTimeObj jt with
      | .ok d, .ok t =>
        match List.lookup "offset" fields with
        | none => .error "dateTime missing required UTC offset"
        | some jo =>
          match jToInt jo with
          | .error e => .error e
          | .ok off =>
            match List.lookup "tz" fields with
            | some (.str tz) => .ok (.dateTime ⟨d, t, off, tz⟩)
            | _ => .error "dateTime missing timezone name"
      | _, _ => .error "malformed dateTime"
    | _, _ => .error "malformed dateTime"
  | "uri" =>
    match List.lookup "val" fields with
    | some (.str u) => .ok (.uri u)
    | _ => .error "uri missing val"
  | "coord" =>
    match List.lookup "lat" fields, List.lookup "lng" fields with
    | some (.num lat), some (.num lng) => .ok (.coord lat lng)
    | _, _ => .error "malformed coord"
  | "xstr" =>
    match List.lookup "type" fields, List.lookup "val" fields with
    | some (.str xtype), some (.str xval) => .ok (.xstr xtype xval)
    | _, _ => .error "malformed xstr"
  | "symbol" =>
    match List.lookup "val" fields with
    | some (.str s) => .ok (.symbol s)
    | _ => .error "symbol missing val"
  | "grid" =>
    match List.lookup "meta" fields, List.lookup "cols" fields,
        List.lookup "rows" fields with
    | some (.obj mf), some (.arr cj), some (.arr rj) =>
      match decHEntries f mf with
      | .error e => .error e
      | .ok m =>
        match decHCols f cj with
        | .error e => .error e
        | .ok c =>
          match decHRows f rj with
          | .error e => .error e
          | .ok r => .ok (.grid m c r)
    | _, _, _ => .error "malformed grid"
  | other => .error ("unrecognised _kind sentinel: " ++ other)

/-- Decode an array of Hayson values. -/
def decHElems : Nat → List Json → Except String (List Value)
  | _, [] => .ok []
  | 0, _ :: _ => .error "recursion limit exceeded"
  | f + 1, j :: js =>
    match decH f j with
    | .error e => .error e
    | .ok v =>
      match decHElems f js with
      | .error e => .error e
      | .ok vs => .ok (v :: vs)

/-- Decode the fields of a Hayson object as dict entries. -/
def decHEntries : Nat → List (String × Json) → Except String (List (String × Value))
  | _, [] => .ok []
  | 0, _ :: _ => .error "recursion limit exceeded"
  | f + 1, (k, j) :: fs =>
    match decH f j with
    | .error e => .error e
    | .ok v =>
      match decHEntries f fs with
      | .error e => .error e
      | .ok es => .ok ((k, v) :: es)

/-- Decode an array of Hayson column definitions. -/
def decHCols : Nat → List Json → Except String (List (String × List (String × Value)))
  | _, [] => .ok []
  | 0, _ :: _ => .error "recursion limit exceeded"
  | f + 1, j :: js =>
    match j with
    | .obj fields =>
      match List.lookup "name" fields, List.lookup "meta" fields with
      | some (.str n), some (.obj mf) =>
        match decHEntries f mf with
        | .error e => .error e
        | .ok meta =>
          match decHCols f js with
          | .error e => .error e
          | .ok cs => .ok ((n, meta) :: cs)
      | _, _ => .error "malformed column definition"
    | _ => .error "malformed column definition"

/-- Decode an array of Hayson rows. -/
def decHRows : Nat → List Json → Except String (List (List (String × Value)))
  | _, [] => .ok []
  | 0, _ :: _ => .error "recursion limit exceeded"
  | f + 1, j :: js =>
    match j with
    | .obj fields =>
      match decHEntries f fields with
      | .error e => .error e
      | .ok r =>
        match decHRows f js with
        | .error e => .error e
        | .ok rs => .ok (r :: rs)
    | _ => .error "malformed row"

end

mutual

/-- Size of a JSON document, used as the decoder's recursion budget. -/
def jsonSize : Json → Nat
  | .null => 1
  | .bool _ => 1
  | .num _ => 1
  | .str _ => 1
  | .arr xs => 1 + jsonSizeElems xs
  | .obj fields => 1 + jsonSizeFields fields

/-- Total size of a list of JSON documents. -/
def jsonSizeElems : List Json → Nat
  | [] => 0
  | j :: js => 1 + jsonSize j + jsonSizeElems js

/-- Total size of a list of JSON object fields. -/
def jsonSizeFields : List (String × Json) → Nat
  | [] => 0
  | (_, j) :: fs => 1 + jsonSize j + jsonSizeFields fs

end

/-- Hayson encoding of a Grid (the codec's `encode` for the JSON wire
format). -/
def encodeHayson (g : Grid) : Json := encH (.grid g.meta g.cols g.rows)

/-- Strict Hayson decoding of a Grid (the codec's `decode` for the JSON
wire format): the document must be a grid, and decoding any part fails
rather than substituting a default. -/
def decodeHayson (j : Json) : Except String Grid :=
  match decH (jsonSize j) j with
  | .error e => .error e
  | .ok (.grid m c r) => .ok ⟨m, c, r⟩
  | .ok _ => .error "document is not a grid"

/-! ### The Zinc (text) wire encoding

Modelled from the spec (§4.1, glossary): Zinc is the compact text grid
format, modelled here at the lexical-token level (each Haystack scalar is
a single lexical token; the character-level lexer is routine and outside
the round-trip property).  A grid is a version header, grid metadata, a
column-definition line, and one line per row whose cells appear
positionally in column order, an absent cell being an empty slot. -/

/-- A lexical token of the Zinc grid format. -/
inductive ZTok where
  | marker
  | remove
  | na
  | bool (b : Bool)
  | num (n : NumVal) (unit : Option String)
  | str (s : String)
  | ref (id : String) (dis : Option String)
  | date (d : Date)
  | time (t : Time)
  | dateTime (dt : DateTime)
  | uri (u : String)
  | coord (lat lng : ℚ)
  | xstr (xtype : String) (xval : String)
  | symbol (s : String)
  | name (s : String)
  | ver
  | empty
  | comma
  | colon
  | nl
  | lbracket
  | rbracket
  | lbrace
  | rbrace
  | lgrid
  | rgrid
deriving DecidableEq, Repr

mutual

/-- Zinc encoding of a value as a token sequence. -/
def encZ : Value → List ZTok
  | .marker => [.marker]
  | .removeMarker => [.remove]
  | .na => [.na]
  | .bool b => [.bool b]
  | .number n unit => [.num n unit]
  | .str s => [.str s]
  | .ref id dis => [.ref id dis]
  | .date d => [.date d]
  | .time t => [.time t]
  | .dateTime dt => [.dateTime dt]
  | .uri u => [.uri u]
  | .coord lat lng => [.coord lat lng]
  | .xstr xtype xval => [.xstr xtype xval]
  | .symbol s => [.symbol s]
  | .list xs => .lbracket :: encZElems xs
  | .dict es => .lbrace :: encZEntries es
  | .grid m c r =>
    .lgrid :: .ver :: .lbrace :: (encZEntries m ++ .nl :: (encZCols c ++ encZRows c r))

/-- Zinc encoding of list elements; each element is followed by a comma,
and the list is closed by a right bracket. -/
def encZElems : List Value → List ZTok
  | [] => [.rbracket]
  | x :: xs => encZ x ++ .comma :: encZElems xs

/-- Zinc encoding of dict entries; each entry is `name: value,` and the
dict is closed by a right brace. -/
def encZEntries : List (String × Value) → List ZTok
  | [] => [.rbrace]
  | (k, v) :: es => .name k :: .colon :: (encZ v ++ .comma :: encZEntries es)

/-- Zinc encoding of the column-definition line; each column is its name
followed by its metadata dict and a comma, and the line ends with a
newline. -/
def encZCols : List (String × List (String × Value)) → List ZTok
  | [] => [.nl]
  | (n, meta) :: cs => .name n :: .lbrace :: (encZEntries meta ++ .comma :: encZCols cs)

/-- Zinc encoding of the cells of one row, positionally in column order;
every cell (present value or empty slot) is followed by a comma. -/
def encZRowCells : List (String × List (String × Value)) → List (String × Value) → List ZTok
  | [], _ => []
  | _ :: cs, [] => .empty :: .comma :: encZRowCells cs []
  | (n, _) :: cs, (k, v) :: es =>
    if k = n then encZ v ++ .comma :: encZRowCells cs es
    else .empty :: .comma :: encZRowCells cs ((k, v) :: es)

/-- Zinc encoding of the rows; each row is a newline followed by its
cells, and the grid is closed by the grid terminator. -/
def encZRows (cols : List (String × List (String × Value))) :
    List (List (String × Value)) → List ZTok
  | [] => [.rgrid]
  | r :: rs => .nl :: (encZRowCells cols r ++ encZRows cols rs)

end

mutual

/-- Parse one Zinc value from a token stream, returning the value and the
remaining tokens.  The `fuel` parameter bounds the recursion depth; the
top-level decoder supplies the stream length, which always suffices. -/
def parseZVal : Nat → List ZTok → Except String (Value × List ZTok)
  | 0, _ => .error "recursion limit exceeded"
  | _ + 1, .marker :: rest => .ok (.marker, rest)
  | _ + 1, .remove :: rest => .ok (.removeMarker, rest)
  | _ + 1, .na :: rest => .ok (.na, rest)
  | _ + 1, .bool b :: rest => .ok (.bool b, rest)
  | _ + 1, .num n unit :: rest => .ok (.number n unit, rest)
  | _ + 1, .str s :: rest => .ok (.str s, rest)
  | _ + 1, .ref id dis :: rest => .ok (.ref id dis, rest)
  | _ + 1, .date d :: rest => .ok (.date d, rest)
  | _ + 1, .time t :: rest => .ok (.time t, rest)
  | _ + 1, .dateTime dt :: rest => .ok (.dateTime dt, rest)
  | _ + 1, .uri u :: rest => .ok (.uri u, rest)
  | _ + 1, .coord lat lng :: rest => .ok (.coord lat lng, rest)
  | _ + 1, .xstr xtype xval :: rest => .ok (.xstr xtype xval, rest)
  | _ + 1, .symbol s :: rest => .ok (.symbol s, rest)
  | f + 1, .lbracket :: rest =>
    match parseZElems f rest with
    | .error e => .error e
    | .ok (xs, r1) => .ok (.list xs, r1)
  | f + 1, .lbrace :: rest =>
    match parseZEntries f rest with
    | .error e => .error e
    | .ok (es, r1) => .ok (.dict es, r1)
  | f + 1, .lgrid :: .ver :: .lbrace :: rest =>
    match parseZEntries f rest with
    | .error e => .error e
    | .ok (m, r1) =>
      match r1 with
      | .nl :: r2 =>
        match parseZCols f r2 with
        | .error e => .error e
        | .ok (c, r3) =>
          match parseZRows f c r3 with
          | .error e => .error e
          | .ok (rows, r4) => .ok (.grid m c rows, r4)
      | _ => .error "expected end of grid metadata line"
  | _ + 1, _ => .error "unexpected token"

/-- Parse list elements up to the closing bracket. -/
def parseZElems : Nat → List ZTok → Except String (List Value × List ZTok)
  | 0, _ => .error "recursion limit exceeded"
  | f + 1, toks =>
    match parseZVal f toks with
    | .ok (v, r1) =>
      match r1 with
      | .comma :: r2 =>
        match parseZElems f r2 with
        | .error e => .error e
        | .ok (vs, r3) => .ok (v :: vs, r3)
      | _ => .error "expected a comma after a list element"
    | .error _ =>
      match toks with
      | .rbracket :: rest => .ok ([], rest)
      | _ => .error "malformed list"

/-- Parse dict entries up to the closing brace. -/
def parseZEntries : Nat → List ZTok → Except String (List (String × Value) × List ZTok)
  | 0, _ => .error "recursion limit exceeded"
  | f + 1, toks =>
    match toks with
    | .rbrace :: rest => .ok ([], rest)
    | .name k :: .colon :: r1 =>
      match parseZVal f r1 with
      | .error e => .error e
      | .ok (v, r2) =>
        match r2 with
        | .comma :: r3 =>
          match parseZEntries f r3 with
          | .error e => .error e
          | .ok (es, r4) => .ok ((k, v) :: es, r4)
        | _ => .error "expected a comma after a dict entry"
    | _ => .error "malformed dict"

/-- Parse the column-definition line up to its terminating newline. -/
def parseZCols : Nat → List ZTok →
    Except String (List (String × List (String × Value)) × List ZTok)
  | 0, _ => .error "recursion limit exceeded"
  | f + 1, toks =>
    match toks with
    | .nl :: rest => .ok ([], rest)
    | .name n :: .lbrace :: r1 =>
      match parseZEntries f r1 with
      | .error e => .error e
      | .ok (meta, r2) =>
        match r2 with
        | .comma :: r3 =>
          match parseZCols f r3 with
          | .error e => .error e
          | .ok (cs, r4) => .ok ((n, meta) :: cs, r4)
        | _ => .error "expected a comma after a column definition"
    | _ => .error "malformed column line"

/-- Parse one cell per column, reconstructing the sparse row: a present
cell contributes its column's name and value, an empty slot is skipped. -/
def parseZRowCells : Nat → List (String × List (String × Value)) → List ZTok →
    Except String (List (String × Value) × List ZTok)
  | _, [], toks => .ok ([], toks)
  | 0, _ :: _, _ => .error "recursion limit exceeded"
  | f + 1, (n, _) :: cs, toks =>
    match parseZVal f toks with
    | .ok (v, r1) =>
      match r1 with
      | .comma :: r2 =>
        match parseZRowCells f cs r2 with
        | .error e => .error e
        | .ok (es, r3) => .ok ((n, v) :: es, r3)
      | _ => .error "expected a comma after a cell"
    | .error _ =>
      match toks with
      | .empty :: .comma :: r2 =>
        match parseZRowCells f cs r2 with
        | .error e => .error e
        | .ok (es, r3) => .ok (es, r3)
      | _ => .error "malformed cell"

/-- Parse the rows up to the grid terminator. -/
def parseZRows : Nat → List (String × List (String × Value)) → List ZTok →
    Except String (List (List (String × Value)) × List ZTok)
  | 0, _, _ => .error "recursion limit exceeded"
  | f + 1, cols, toks =>
    match toks with
    | .rgrid :: rest => .ok ([], rest)
    | .nl :: r1 =>
      match parseZRowCells f cols r1 with
      | .error e => .error e
      | .ok (r, r2) =>
        match parseZRows f cols r2 with
        | .error e => .error e
        | .ok (rs, r3) => .ok (r :: rs, r3)
    | _ => .error "malformed rows"

end

/-- Zinc encoding of a Grid (the codec's `encode` for the text wire
format). -/
def encodeZinc (g : Grid) : List ZTok := encZ (.grid g.meta g.cols g.rows)

/-- Strict Zinc decoding of a Grid (the codec's `decode` for the text
wire format): the token stream must be exactly one grid. -/
def decodeZinc (toks : List ZTok) : Except String Grid :=
  match parseZVal toks.length toks with
  | .error e => .error e
  | .ok (.grid m c r, []) => .ok ⟨m, c, r⟩
  | .ok (_, _ :: _) => .error "trailing tokens after the grid"
  | .ok _ => .error "document is not a grid"

/-! ### Sample fixtures used to instantiate the theorems below -/

/-- An empty grid. -/
def gOk : Grid := ⟨[], [], []⟩

/-- A sample transport failure. -/
def errTransport : Error := .transport "connection refused"

/-- A completed asynchronous operation yielding the empty grid. -/
def futOk : Future (Result Grid) := ⟨2, .ok gOk⟩

/-- A completed asynchronous operation yielding a transport failure. -/
def futErr : Future (Result Grid) := ⟨1, .error errTransport⟩

/-- A sample project URL. -/
def sampleUrl : Url := ⟨"https://example.com/api/proj/"⟩

/-- A sample protocol client whose `about` operation fails with a
transport error and whose other operations succeed with the empty
grid. -/
def sampleProto : ProtocolClient :=
  { projectName := "proj"
    projectApiUrl := sampleUrl
    aboutOp := futErr
    formatsOp := futOk
    opsOp := futOk
    navOp := fun _ => futOk
    readOp := fun _ _ => futOk
    readByIdsOp := fun _ => futOk
    evalOp := fun _ => futOk
    hisReadOp := fun _ _ => futOk
    hisWriteBoolOp := fun _ _ => futOk
    hisWriteNumOp := fun _ _ => futOk
    hisWriteStrOp := fun _ _ => futOk
    utcHisWriteBoolOp := fun _ _ _ => futOk
    utcHisWriteNumOp := fun _ _ _ => futOk
    utcHisWriteStrOp := fun _ _ _ => futOk }

/-- A sample facade over `sampleProto` with a fresh runtime. -/
def sampleClient : SkySparkClient := ⟨sampleProto, ⟨⟨0⟩⟩⟩

/-- A sample environment in which the sample URL parses, runtime creation
succeeds and authentication yields `sampleProto`. -/
def envOk : Env :=
  { urlParse := fun s =>
      if s = "https://example.com/api/proj/" then .ok ⟨s⟩
      else .error "relative URL without a base"
    runtimeNew := .ok ⟨0⟩
    newWithClient := fun _ _ _ => ⟨3, .ok sampleProto⟩ }

/-- Like `envOk` but authentication rejects the credentials. -/
def envBadAuth : Env :=
  { envOk with newWithClient := fun _ _ _ => ⟨3, .error (.auth "invalid credentials")⟩ }

/-- Like `envOk` but Tokio runtime creation fails. -/
def envNoRt : Env := { envOk with runtimeNew := .error "no file descriptors" }

/-- A representable sample grid exercising sparse rows, an empty row,
refs with and without display names, units, markers and a nested dict. -/
def gW : Grid :=
  ⟨[("dis", .str "Sites"), ("extra", .dict [("tag", .marker)])],
    [("id", [("m", .marker)]), ("site", []), ("area", [])],
    [[("id", .ref "a" (some "Site A")), ("site", .marker)],
      [("id", .ref "b" none), ("area", .number (.finite (35 : ℚ)) (some "m2"))],
      []]⟩

/-! ### Facade pass-through lemmas -/

/-- The result of any facade operation is the result of the corresponding
asynchronous operation. -/
theorem SkySparkClient.run_fst (c : SkySparkClient) (op : Op) :
    (c.run op).1 = (c.client.asyncOp op).result := by
  cases op <;> rfl

/-- No facade operation changes the wrapped protocol client. -/
theorem SkySparkClient.run_client (c : SkySparkClient) (op : Op) :
    ((c.run op).2).client = c.client := by
  cases op <;> rfl

/-- Every facade operation submits exactly one unit of asynchronous work
to the execution context. -/
theorem SkySparkClient.run_submitted (c : SkySparkClient) (op : Op) :
    ((c.run op).2).rt.val.submitted = c.rt.val.submitted + 1 := by
  cases op <;> rfl

/-! ### Claims about the blocking facade's operations -/

/-- C1: every facade operation (about, formats, ops, nav, read,
read_by_ids, eval, his_read, the his_write variants and the utc_his_write
variants) returns exactly the result of driving the corresponding
asynchronous Protocol Client operation to completion; in particular a
failed asynchronous operation becomes the identical failed synchronous
call, with no error swallowed or remapped. -/
theorem facade_refines_protocol_client (c : SkySparkClient) (op : Op) :
    (c.run op).1 = (c.client.asyncOp op).result ∧
      ∀ e, (c.client.asyncOp op).result = .error e → (c.run op).1 = .error e := by
  refine ⟨c.run_fst op, fun e he => ?_⟩
  rw [c.run_fst op, he]

/-- Witness for C1: on the sample client, whose asynchronous `about`
operation fails with a transport error, the synchronous `about` call
returns that very error. -/
theorem facade_refines_protocol_client_witness :
    (sampleClient.run .about).1 = .error errTransport :=
  (facade_refines_protocol_client sampleClient .about).2 errTransport rfl

/-- C4: every facade operation returns a Result-shaped outcome — either a
success Grid or a typed error — and never both: there is no
partial-success outcome. -/
theorem operations_are_result_shaped (c : SkySparkClient) (op : Op) :
    ((∃ g, (c.run op).1 = .ok g) ∨ (∃ e, (c.run op).1 = .error e)) ∧
      ¬((∃ g, (c.run op).1 = .ok g) ∧ ∃ e, (c.run op).1 = .error e) := by
  constructor
  · cases h : (c.run op).1 with
    | error e => exact .inr ⟨e, rfl⟩
    | ok g => exact .inl ⟨g, rfl⟩
  · rintro ⟨⟨g, hg⟩, ⟨e, he⟩⟩
    rw [hg] at he
    exact Except.noConfusion he

/-- C6: two sequential calls on the same facade instance complete
independently — the second call's result equals what the same call
returns in isolation, whatever the first call's outcome was. -/
theorem sequential_calls_independent (c : SkySparkClient) (op1 op2 : Op) :
    (((c.run op1).2).run op2).1 = (c.run op2).1 := by
  rw [SkySparkClient.run_fst, SkySparkClient.run_fst, SkySparkClient.run_client]

/-- C7: no component retries automatically — each facade operation call
submits the underlying asynchronous operation to the execution context
exactly once, and a failure is returned to the caller rather than
triggering a second attempt inside the client. -/
theorem no_automatic_retry (c : SkySparkClient) (op : Op) :
    ((c.run op).2).rt.val.submitted = c.rt.val.submitted + 1 ∧
      ∀ e, (c.client.asyncOp op).result = .error e → (c.run op).1 = .error e := by
  refine ⟨c.run_submitted op, fun e he => ?_⟩
  rw [c.run_fst op, he]

/-- Witness for C7: the sample client's failing `about` call submits
exactly one unit of work and returns the failure. -/
theorem no_automatic_retry_witness :
    ((sampleClient.run .about).2).rt.val.submitted = sampleClient.rt.val.submitted + 1 ∧
      (sampleClient.run .about).1 = .error errTransport :=
  ⟨(no_automatic_retry sampleClient .about).1,
    (no_automatic_retry sampleClient .about).2 errTransport rfl⟩

/-- C10: every facade operation leaves the client's project identity
unchanged: `project_name()` and `project_api_url()` return the same
values after the call as before it, whether it succeeded or failed. -/
theorem project_identity_preserved (c : SkySparkClient) (op : Op) :
    ((c.run op).2).project_name = c.project_name ∧
      ((c.run op).2).project_api_url = c.project_api_url := by
  constructor
  · show ((c.run op).2).client.projectName = c.client.projectName
    rw [SkySparkClient.run_client]
  · show ((c.run op).2).client.projectApiUrl = c.client.projectApiUrl
    rw [SkySparkClient.run_client]

/-! ### Claims about construction -/

/-- C2: `new_client(project_api_url, username, password)` yields a client
exactly when the URL parses and client construction (authentication)
succeeds; a URL parse failure or a construction failure is returned as an
error, and a client is never yielded when either step failed. -/
theorem new_client_contract (env : Env) (s username password : String) :
    (∀ c, new_client env s username password = .ok c ↔
        ∃ url, env.urlParse s = .ok url ∧
          SkySparkClient.new env url username password = .ok c) ∧
      (∀ e, env.urlParse s = .error e →
        new_client env s username password = .err (.urlErr e)) ∧
      ∀ url e, env.urlParse s = .ok url →
        SkySparkClient.new env url username password = .err e →
        new_client env s username password = .err (.clientErr e) := by
  refine ⟨fun c => ⟨fun h => ?_, fun hex => ?_⟩, fun e he => ?_, fun url e hu hn => ?_⟩
  · cases hu : env.urlParse s with
    | error e => simp [new_client, hu] at h
    | ok url =>
      cases hn : SkySparkClient.new env url username password with
      | panicked m => simp [new_client, hu, hn] at h
      | err e2 => simp [new_client, hu, hn] at h
      | ok c2 =>
        simp only [new_client, hu, hn, Outcome.ok.injEq] at h
        exact ⟨url, rfl, by rw [hn, h]⟩
  · obtain ⟨url, hu, hn⟩ := hex
    simp [new_client, hu, hn]
  · simp [new_client, he]
  · simp [new_client, hu, hn]

/-- Witness for C2: in the sample environment a malformed URL string is
rejected, and the well-formed URL with accepted credentials yields a
ready client. -/
theorem new_client_contract_witness :
    new_client envOk "not a url" "u" "p" = .err (.urlErr "relative URL without a base") ∧
      new_client envOk "https://example.com/api/proj/" "u" "p" =
        .ok ⟨sampleProto, ⟨⟨1⟩⟩⟩ := by
  constructor
  · exact (new_client_contract envOk "not a url" "u" "p").2.1
      "relative URL without a base" rfl
  · exact ((new_client_contract envOk "https://example.com/api/proj/" "u" "p").1
      ⟨sampleProto, ⟨⟨1⟩⟩⟩).mpr ⟨⟨"https://example.com/api/proj/"⟩, rfl, rfl⟩

/-- C3: constructing a facade with `new` (fresh, privately owned runtime)
is equivalent to constructing it with `new_with_runtime` (caller-supplied
shared, reference-counted runtime): `new` delegates to `new_with_runtime`
on a fresh runtime, and for any supplied runtime the resulting clients
have identical observable behaviour — same project identity and the same
result for every operation. -/
theorem construction_modes_equivalent (env : Env) (url : Url)
    (username password : String) (rt : Arc Runtime) (rt0 : Runtime)
    (h : env.runtimeNew = .ok rt0) :
    SkySparkClient.new env url username password =
        Outcome.ofExcept (SkySparkClient.new_with_runtime env url username password
          (Arc.mk rt0)) ∧
      ∀ c c', SkySparkClient.new env url username password = .ok c →
        SkySparkClient.new_with_runtime env url username password rt = .ok c' →
        c.project_name = c'.project_name ∧ c.project_api_url = c'.project_api_url ∧
          ∀ op, (c.run op).1 = (c'.run op).1 := by
  constructor
  · simp [SkySparkClient.new, h]
  · intro c c' hc hc'
    cases hres : (env.newWithClient url username password).result with
    | error e =>
      simp [SkySparkClient.new, h, SkySparkClient.new_with_runtime, Arc.blockOn, hres,
        Outcome.ofExcept] at hc
    | ok pc =>
      simp only [SkySparkClient.new, h, SkySparkClient.new_with_runtime, Arc.blockOn,
        hres, Outcome.ofExcept, Outcome.ok.injEq] at hc
      simp only [SkySparkClient.new_with_runtime, Arc.blockOn, hres,
        Except.ok.injEq] at hc'
      have hcl : c.client = pc := by rw [← hc]
      have hcl' : c'.client = pc := by rw [← hc']
      refine ⟨?_, ?_, fun op => ?_⟩
      · show c.client.projectName = c'.client.projectName
        rw [hcl, hcl']
      · show c.client.projectApiUrl = c'.client.projectApiUrl
        rw [hcl, hcl']
      · rw [SkySparkClient.run_fst, SkySparkClient.run_fst, hcl, hcl']

/-- Witness for C3: in the sample environment with any shared runtime
already used five times, both construction modes yield clients agreeing
on project identity and on the `eval` operation's result. -/
theorem construction_modes_equivalent_witness :
    SkySparkClient.new envOk sampleUrl "u" "p" =
        Outcome.ofExcept (SkySparkClient.new_with_runtime envOk sampleUrl "u" "p"
          (Arc.mk ⟨0⟩)) ∧
      (⟨sampleProto, ⟨⟨1⟩⟩⟩ : SkySparkClient).project_name =
          (⟨sampleProto, ⟨⟨6⟩⟩⟩ : SkySparkClient).project_name ∧
        (⟨sampleProto, ⟨⟨1⟩⟩⟩ : SkySparkClient).project_api_url =
            (⟨sampleProto, ⟨⟨6⟩⟩⟩ : SkySparkClient).project_api_url ∧
          ∀ op, ((⟨sampleProto, ⟨⟨1⟩⟩⟩ : SkySparkClient).run op).1 =
            ((⟨sampleProto, ⟨⟨6⟩⟩⟩ : SkySparkClient).run op).1 :=
  ⟨(construction_modes_equivalent envOk sampleUrl "u" "p" (Arc.mk ⟨5⟩) ⟨0⟩ rfl).1,
    (construction_modes_equivalent envOk sampleUrl "u" "p" (Arc.mk ⟨5⟩) ⟨0⟩ rfl).2
      ⟨sampleProto, ⟨⟨1⟩⟩⟩ ⟨sampleProto, ⟨⟨6⟩⟩⟩ rfl rfl⟩

/-- C5: a malformed base URL is surfaced immediately as `new_client`'s
result, and nothing further is attempted: the outcome is the URL error,
and it is entirely independent of the runtime-creation and
authentication components of the environment (so no runtime is created
and no authentication or HTTP call can influence the call). -/
theorem malformed_url_short_circuits (env env' : Env) (s username password : String)
    (e : String) (he : env.urlParse s = .error e)
    (hsame : env'.urlParse = env.urlParse) :
    new_client env s username password = .err (.urlErr e) ∧
      new_client env' s username password = new_client env s username password := by
  have h1 : new_client env s username password = .err (.urlErr e) := by
    unfold new_client
    rw [he]
  have h2 : new_client env' s username password = .err (.urlErr e) := by
    unfold new_client
    rw [hsame, he]
  exact ⟨h1, h2.trans h1.symm⟩

/-- Witness for C5: the malformed string is rejected identically by the
healthy environment and by the environment whose runtime creation fails,
with no runtime created and no authentication attempted. -/
theorem malformed_url_short_circuits_witness :
    new_client envOk "not a url" "u" "p" = .err (.urlErr "relative URL without a base") ∧
      new_client envNoRt "not a url" "u" "p" = new_client envOk "not a url" "u" "p" :=
  malformed_url_short_circuits envOk envNoRt "not a url" "u" "p"
    "relative URL without a base" rfl rfl

/-- C9: if creating the fresh Tokio runtime fails, `SkySparkClient::new`
(and therefore `new_client`, once the URL has parsed) panics with the
`expect` message rather than returning an error value; when runtime
creation succeeds, construction returns an error value or a client and
never panics. -/
theorem runtime_creation_failure_panics (env : Env) (url : Url)
    (s username password : String) :
    (∀ e, env.runtimeNew = .error e →
        SkySparkClient.new env url username password =
            .panicked "could not create a new Tokio runtime" ∧
          (env.urlParse s = .ok url →
            new_client env s username password =
              .panicked "could not create a new Tokio runtime")) ∧
      ∀ rt, env.runtimeNew = .ok rt →
        ∀ m, SkySparkClient.new env url username password ≠ .panicked m := by
  constructor
  · intro e he
    have hp : SkySparkClient.new env url username password =
        .panicked "could not create a new Tokio runtime" := by
      simp [SkySparkClient.new, he]
    refine ⟨hp, fun hu => ?_⟩
    simp [new_client, hu, hp]
  · intro rt hrt m
    simp only [SkySparkClient.new, hrt]
    cases h' : SkySparkClient.new_with_runtime env url username password (Arc.mk rt) with
    | error e => simp [Outcome.ofExcept]
    | ok c => simp [Outcome.ofExcept]

/-- Witness for C9: with failing runtime creation both construction entry
points panic with the `expect` message; with the healthy environment,
construction does not panic. -/
theorem runtime_creation_failure_panics_witness :
    SkySparkClient.new envNoRt sampleUrl "u" "p" =
        .panicked "could not create a new Tokio runtime" ∧
      new_client envNoRt "https://example.com/api/proj/" "u" "p" =
          .panicked "could not create a new Tokio runtime" ∧
        ∀ m, SkySparkClient.new envOk sampleUrl "u" "p" ≠ .panicked m := by
  have h1 := (runtime_creation_failure_panics envNoRt sampleUrl
    "https://example.com/api/proj/" "u" "p").1 "no file descriptors" rfl
  exact ⟨h1.1, h1.2 rfl, fun m =>
    (runtime_creation_failure_panics envOk sampleUrl
      "https://example.com/api/proj/" "u" "p").2 ⟨0⟩ rfl m⟩

/-! ### Round-trip of the Hayson encoding -/

/-- Every JSON document has positive size. -/
theorem jsonSize_pos (j : Json) : 1 ≤ jsonSize j := by
  cases j <;> simp [jsonSize]

/-- Integers survive the trip through JSON numbers. -/
theorem jToInt_jsonInt (i : Int) : jToInt (jsonInt i) = .ok i := by
  simp [jToInt, jsonInt]

/-- Natural numbers survive the trip through JSON numbers. -/
theorem jToNat_jsonNat (n : Nat) : jToNat (jsonNat n) = .ok n := by
  simp [jToNat, jToInt, jsonNat]

/-- Decoding the fields of an encoded date recovers the date. -/
theorem decDateFields_enc (d : Date) :
    decDateFields [("_kind", .str "date"), ("year", jsonInt d.year),
      ("month", jsonNat d.month), ("day", jsonNat d.day)] = .ok d := by
  simp [decDateFields, List.lookup, jToInt_jsonInt, jToNat_jsonNat]

/-- Decoding the fields of an encoded time recovers the time. -/
theorem decTimeFields_enc (t : Time) :
    decTimeFields [("_kind", .str "time"), ("hour", jsonNat t.hour),
      ("minute", jsonNat t.minute), ("second", jsonNat t.second),
      ("fraction", jsonNat t.fraction)] = .ok t := by
  simp [decTimeFields, List.lookup, jToNat_jsonNat]

/-- Decoding an encoded date object recovers the date. -/
theorem decDateObj_enc (d : Date) : decDateObj (encDateObj d) = .ok d := by
  simp [decDateObj, encDateObj, List.lookup]
  exact decDateFields_enc d

/-- Decoding an encoded time object recovers the time. -/
theorem decTimeObj_enc (t : Time) : decTimeObj (encTimeObj t) = .ok t := by
  simp [decTimeObj, encTimeObj, List.lookup]
  exact decTimeFields_enc t

/-- Tag names never equal the `_kind` discriminator (which starts with an
underscore), so encoded dict entries never contain a `_kind` key. -/
theorem lookup_kind_encHEntries (es : List (String × Value))
    (h : wfEntries es = true) : List.lookup "_kind" (encHEntries es) = none := by
  induction es with
  | nil => simp [encHEntries]
  | cons e es ih =>
    obtain ⟨k, v⟩ := e
    simp only [wfEntries, Bool.and_eq_true] at h
    obtain ⟨⟨hk1, _⟩, hes⟩ := h
    have hk : ¬("_kind" = k) := by
      intro hkk
      rw [← hkk] at hk1
      exact absurd hk1 (by decide)
    have hbeq : ("_kind" == k) = false := beq_eq_false_iff_ne.mpr hk
    simp [encHEntries, List.lookup, hbeq, ih hes]

/-- Decoding an encoding, for well-formed data, recovers the original:
the joint statement for values, list elements, dict entries, column
definitions and rows, by induction on the decoder's recursion budget. -/
theorem haysonAux (f : Nat) :
    (∀ v, wfVal v = true → jsonSize (encH v) ≤ f → decH f (encH v) = .ok v) ∧
      (∀ xs, wfElems xs = true → jsonSizeElems (encHElems xs) ≤ f →
        decHElems f (encHElems xs) = .ok xs) ∧
      (∀ es, wfEntries es = true → jsonSizeFields (encHEntries es) ≤ f →
        decHEntries f (encHEntries es) = .ok es) ∧
      (∀ cs, wfCols cs = true → jsonSizeElems (encHCols cs) ≤ f →
        decHCols f (encHCols cs) = .ok cs) ∧
      ∀ cols rs, wfRows cols rs = true → jsonSizeElems (encHRows rs) ≤ f →
        decHRows f (encHRows rs) = .ok rs := by
  induction f with
  | zero =>
    refine ⟨fun v _ hb => absurd hb ?_, fun xs _ hb => ?_, fun es _ hb => ?_,
      fun cs _ hb => ?_, fun cols rs _ hb => ?_⟩
    · have := jsonSize_pos (encH v)
      omega
    · cases xs with
      | nil => simp [encHElems, decHElems]
      | cons x xs =>
        simp only [encHElems, jsonSizeElems] at hb
        omega
    · cases es with
      | nil => simp [encHEntries, decHEntries]
      | cons e es =>
        obtain ⟨k, v⟩ := e
        simp only [encHEntries, jsonSizeFields] at hb
        omega
    · cases cs with
      | nil => simp [encHCols, decHCols]
      | cons c cs =>
        obtain ⟨n, meta⟩ := c
        simp only [encHCols, jsonSizeElems] at hb
        omega
    · cases rs with
      | nil => simp [encHRows, decHRows]
      | cons r rs =>
        simp only [encHRows, jsonSizeElems] at hb
        omega
  | succ f ih =>
    obtain ⟨ihv, ihe, ihn, ihc, ihr⟩ := ih
    refine ⟨fun v hwf hb => ?_, fun xs hwf hb => ?_, fun es hwf hb => ?_,
      fun cs hwf hb => ?_, fun cols rs hwf hb => ?_⟩
    · cases v with
      | marker => simp [encH, decH, decHKind, List.lookup]
      | removeMarker => simp [encH, decH, decHKind, List.lookup]
      | na => simp [encH, decH, decHKind, List.lookup]
      | bool b => simp [encH, decH]
      | number n unit =>
        cases n <;> cases unit <;>
          simp [encH, decH, decHKind, decNumVal, encNumVal, optStrField, List.lookup]
      | str s => simp [encH, decH]
      | ref id dis =>
        cases dis <;> simp [encH, decH, decHKind, optStrField, List.lookup]
      | date d =>
        simp [encH, encDateObj, decH, decHKind, List.lookup, decDateFields_enc]
      | time t =>
        simp [encH, encTimeObj, decH, decHKind, List.lookup, decTimeFields_enc]
      | dateTime dt =>
        simp [encH, decH, decHKind, List.lookup, decDateObj_enc, decTimeObj_enc,
          jToInt_jsonInt]
      | uri u => simp [encH, decH, decHKind, List.lookup]
      | coord lat lng => simp [encH, decH, decHKind, List.lookup]
      | xstr xtype xval => simp [encH, decH, decHKind, List.lookup]
      | symbol s => simp [encH, decH, decHKind, List.lookup]
      | list xs =>
        have hwf' : wfElems xs = true := by simpa [wfVal] using hwf
        have hb' : jsonSizeElems (encHElems xs) ≤ f := by
          simp [encH, jsonSize] at hb
          omega
        simp [encH, decH, ihe xs hwf' hb']
      | dict es =>
        have hwf' : wfEntries es = true := by simpa [wfVal] using hwf
        have hb' : jsonSizeFields (encHEntries es) ≤ f := by
          simp [encH, jsonSize] at hb
          omega
        simp [encH, decH, lookup_kind_encHEntries es hwf', ihn es hwf' hb']
      | grid m c r =>
        simp only [wfVal, Bool.and_eq_true] at hwf
        obtain ⟨⟨hm, hc⟩, hr⟩ := hwf
        simp only [encH, jsonSize, jsonSizeFields] at hb
        have hbm : jsonSizeFields (encHEntries m) ≤ f := by omega
        have hbc : jsonSizeElems (encHCols c) ≤ f := by omega
        have hbr : jsonSizeElems (encHRows r) ≤ f := by omega
        simp [encH, decH, decHKind, List.lookup, ihn m hm hbm, ihc c hc hbc,
          ihr c r hr hbr]
    · cases xs with
      | nil => simp [encHElems, decHElems]
      | cons x xs =>
        simp only [wfElems, Bool.and_eq_true] at hwf
        simp only [encHElems, jsonSizeElems] at hb
        have hbx : jsonSize (encH x) ≤ f := by omega
        have hbxs : jsonSizeElems (encHElems xs) ≤ f := by omega
        simp [encHElems, decHElems, ihv x hwf.1 hbx, ihe xs hwf.2 hbxs]
    · cases es with
      | nil => simp [encHEntries, decHEntries]
      | cons e es =>
        obtain ⟨k, v⟩ := e
        simp only [wfEntries, Bool.and_eq_true] at hwf
        simp only [encHEntries, jsonSizeFields] at hb
        have hbv : jsonSize (encH v) ≤ f := by omega
        have hbes : jsonSizeFields (encHEntries es) ≤ f := by omega
        simp [encHEntries, decHEntries, ihv v hwf.1.2 hbv, ihn es hwf.2 hbes]
    · cases cs with
      | nil => simp [encHCols, decHCols]
      | cons col cs =>
        obtain ⟨n, meta⟩ := col
        simp only [wfCols, Bool.and_eq_true] at hwf
        simp only [encHCols, jsonSizeElems, jsonSize, jsonSizeFields] at hb
        have hbm : jsonSizeFields (encHEntries meta) ≤ f := by omega
        have hbcs : jsonSizeElems (encHCols cs) ≤ f := by omega
        simp [encHCols, decHCols, List.lookup, ihn meta hwf.1.2 hbm,
          ihc cs hwf.2 hbcs]
    · cases rs with
      | nil => simp [encHRows, decHRows]
      | cons r rs =>
        simp only [wfRows, Bool.and_eq_true] at hwf
        simp only [encHRows, jsonSizeElems, jsonSize] at hb
        have hbr : jsonSizeFields (encHEntries r) ≤ f := by omega
        have hbrs : jsonSizeElems (encHRows rs) ≤ f := by omega
        simp [encHRows, decHRows, ihn r hwf.1.2 hbr, ihr cols rs hwf.2 hbrs]

/-! ### Round-trip of the Zinc encoding -/

/-- An encoded value is at least one token long. -/
theorem encZ_len_pos (v : Value) : 1 ≤ (encZ v).length := by
  cases v <;> simp only [encZ, List.length_cons, List.length_singleton] <;> omega

/-- Encoded list elements are at least one token long. -/
theorem encZElems_len_pos (xs : List Value) : 1 ≤ (encZElems xs).length := by
  cases xs <;>
    simp only [encZElems, List.length_cons, List.length_singleton, List.length_append] <;>
    omega

/-- Encoded dict entries are at least one token long. -/
theorem encZEntries_len_pos (es : List (String × Value)) :
    1 ≤ (encZEntries es).length := by
  cases es with
  | nil => simp [encZEntries]
  | cons e es =>
    obtain ⟨k, v⟩ := e
    simp only [encZEntries, List.length_cons]
    omega

/-- An encoded column line is at least one token long. -/
theorem encZCols_len_pos (cs : List (String × List (String × Value))) :
    1 ≤ (encZCols cs).length := by
  cases cs with
  | nil => simp [encZCols]
  | cons c cs =>
    obtain ⟨n, meta⟩ := c
    simp only [encZCols, List.length_cons]
    omega

/-- Encoded rows are at least one token long. -/
theorem encZRows_len_pos (cols : List (String × List (String × Value)))
    (rows : List (List (String × Value))) : 1 ≤ (encZRows cols rows).length := by
  cases rows <;>
    simp only [encZRows, List.length_cons, List.length_singleton, List.length_append] <;>
    omega

/-- A closing bracket never begins a value. -/
theorem parseZVal_rbracket (f : Nat) (rest : List ZTok) :
    ∃ e, parseZVal f (.rbracket :: rest) = .error e := by
  cases f with
  | zero => exact ⟨_, rfl⟩
  | succ g => exact ⟨_, rfl⟩

/-- An empty-cell slot never begins a value. -/
theorem parseZVal_empty (f : Nat) (rest : List ZTok) :
    ∃ e, parseZVal f (.empty :: rest) = .error e := by
  cases f with
  | zero => exact ⟨_, rfl⟩
  | succ g => exact ⟨_, rfl⟩

/-- Unfolding step of the value parser at an opening bracket. -/
theorem parseZVal_lbracket (f : Nat) (toks : List ZTok) :
    parseZVal (f + 1) (.lbracket :: toks) =
      match parseZElems f toks with
      | .error e => .error e
      | .ok (xs, r1) => .ok (.list xs, r1) := rfl

/-- Unfolding step of the value parser at an opening brace. -/
theorem parseZVal_lbrace (f : Nat) (toks : List ZTok) :
    parseZVal (f + 1) (.lbrace :: toks) =
      match parseZEntries f toks with
      | .error e => .error e
      | .ok (es, r1) => .ok (.dict es, r1) := rfl

/-- Unfolding step of the value parser at a grid opener. -/
theorem parseZVal_lgrid (f : Nat) (toks : List ZTok) :
    parseZVal (f + 1) (.lgrid :: .ver :: .lbrace :: toks) =
      match parseZEntries f toks with
      | .error e => .error e
      | .ok (m, r1) =>
        match r1 with
        | .nl :: r2 =>
          (match parseZCols f r2 with
          | .error e => .error e
          | .ok (c, r3) =>
            match parseZRows f c r3 with
            | .error e => .error e
            | .ok (rows, r4) => .ok (.grid m c rows, r4))
        | _ => .error "expected end of grid metadata line" := rfl

/-- Unfolding step of the element parser. -/
theorem parseZElems_step (f : Nat) (toks : List ZTok) :
    parseZElems (f + 1) toks =
      match parseZVal f toks with
      | .ok (v, r1) =>
        (match r1 with
        | .comma :: r2 =>
          (match parseZElems f r2 with
          | .error e => .error e
          | .ok (vs, r3) => .ok (v :: vs, r3))
        | _ => .error "expected a comma after a list element")
      | .error _ =>
        match toks with
        | .rbracket :: rest => .ok ([], rest)
        | _ => .error "malformed list" := rfl

/-- The entry parser stops at a closing brace. -/
theorem parseZEntries_rbrace (f : Nat) (rest : List ZTok) :
    parseZEntries (f + 1) (.rbrace :: rest) = .ok ([], rest) := rfl

/-- Unfolding step of the entry parser at a dict entry. -/
theorem parseZEntries_entry (f : Nat) (k : String) (toks : List ZTok) :
    parseZEntries (f + 1) (.name k :: .colon :: toks) =
      match parseZVal f toks with
      | .error e => .error e
      | .ok (v, r2) =>
        match r2 with
        | .comma :: r3 =>
          (match parseZEntries f r3 with
          | .error e => .error e
          | .ok (es, r4) => .ok ((k, v) :: es, r4))
        | _ => .error "expected a comma after a dict entry" := rfl

/-- The column parser stops at the end of the line. -/
theorem parseZCols_nl (f : Nat) (rest : List ZTok) :
    parseZCols (f + 1) (.nl :: rest) = .ok ([], rest) := rfl

/-- Unfolding step of the column parser at a column definition. -/
theorem parseZCols_col (f : Nat) (n : String) (toks : List ZTok) :
    parseZCols (f + 1) (.name n :: .lbrace :: toks) =
      match parseZEntries f toks with
      | .error e => .error e
      | .ok (meta, r2) =>
        match r2 with
        | .comma :: r3 =>
          (match parseZCols f r3 with
          | .error e => .error e
          | .ok (cs, r4) => .ok ((n, meta) :: cs, r4))
        | _ => .error "expected a comma after a column definition" := rfl

/-- The cell parser at an exhausted column list returns the empty row. -/
theorem parseZRowCells_nil (f : Nat) (toks : List ZTok) :
    parseZRowCells f [] toks = .ok ([], toks) := by
  cases f <;> rfl

/-- Unfolding step of the cell parser at a remaining column. -/
theorem parseZRowCells_cons (f : Nat) (n : String)
    (cm : List (String × Value)) (cs : List (String × List (String × Value)))
    (toks : List ZTok) :
    parseZRowCells (f + 1) ((n, cm) :: cs) toks =
      match parseZVal f toks with
      | .ok (v, r1) =>
        (match r1 with
        | .comma :: r2 =>
          (match parseZRowCells f cs r2 with
          | .error e => .error e
          | .ok (es, r3) => .ok ((n, v) :: es, r3))
        | _ => .error "expected a comma after a cell")
      | .error _ =>
        match toks with
        | .empty :: .comma :: r2 =>
          (match parseZRowCells f cs r2 with
          | .error e => .error e
          | .ok (es, r3) => .ok (es, r3))
        | _ => .error "malformed cell" := rfl

/-- The row parser stops at the grid terminator. -/
theorem parseZRows_rgrid (f : Nat) (cols : List (String × List (String × Value)))
    (rest : List ZTok) :
    parseZRows (f + 1) cols (.rgrid :: rest) = .ok ([], rest) := rfl

/-- Unfolding step of the row parser at the start of a row. -/
theorem parseZRows_nl (f : Nat) (cols : List (String × List (String × Value)))
    (toks : List ZTok) :
    parseZRows (f + 1) cols (.nl :: toks) =
      match parseZRowCells f cols toks with
      | .error e => .error e
      | .ok (r, r2) =>
        match parseZRows f cols r2 with
        | .error e => .error e
        | .ok (rs, r3) => .ok (r :: rs, r3) := rfl

/-- Parsing an encoding, for well-formed data, recovers the original and
leaves exactly the following tokens: the joint statement for values, list
elements, dict entries, column lines, row cells and rows, by induction on
the parser's recursion budget. -/
theorem zincAux (f : Nat) :
    (∀ v rest, wfVal v = true → (encZ v).length ≤ f →
        parseZVal f (encZ v ++ rest) = .ok (v, rest)) ∧
      (∀ xs rest, wfElems xs = true → (encZElems xs).length ≤ f →
        parseZElems f (encZElems xs ++ rest) = .ok (xs, rest)) ∧
      (∀ es rest, wfEntries es = true → (encZEntries es).length ≤ f →
        parseZEntries f (encZEntries es ++ rest) = .ok (es, rest)) ∧
      (∀ cs rest, wfCols cs = true → (encZCols cs).length ≤ f →
        parseZCols f (encZCols cs ++ rest) = .ok (cs, rest)) ∧
      (∀ cols row rest, sparseRow cols row = true → wfEntries row = true →
        (encZRowCells cols row).length ≤ f →
        parseZRowCells f cols (encZRowCells cols row ++ rest) = .ok (row, rest)) ∧
      ∀ cols rows rest, wfRows cols rows = true → (encZRows cols rows).length ≤ f →
        parseZRows f cols (encZRows cols rows ++ rest) = .ok (rows, rest) := by
  induction f with
  | zero =>
    refine ⟨fun v rest _ hb => ?_, fun xs rest _ hb => ?_, fun es rest _ hb => ?_,
      fun cs rest _ hb => ?_, fun cols row rest hsp _ hb => ?_,
      fun cols rows rest _ hb => ?_⟩
    · have := encZ_len_pos v
      omega
    · have := encZElems_len_pos xs
      omega
    · have := encZEntries_len_pos es
      omega
    · have := encZCols_len_pos cs
      omega
    · cases cols with
      | nil =>
        cases row with
        | nil => simp [encZRowCells, parseZRowCells]
        | cons e es => simp [sparseRow] at hsp
      | cons c cs =>
        obtain ⟨n, cm⟩ := c
        cases row with
        | nil =>
          simp only [encZRowCells, List.length_cons] at hb
          omega
        | cons e es =>
          obtain ⟨k, v⟩ := e
          by_cases hkn : k = n
          · have := encZ_len_pos v
            simp only [encZRowCells, if_pos hkn, List.length_append,
              List.length_cons] at hb
            omega
          · simp only [encZRowCells, if_neg hkn, List.length_cons] at hb
            omega
    · have := encZRows_len_pos cols rows
      omega
  | succ f ih =>
    obtain ⟨ihv, ihe, ihn, ihc, ihrc, ihr⟩ := ih
    refine ⟨fun v rest hwf hb => ?_, fun xs rest hwf hb => ?_,
      fun es rest hwf hb => ?_, fun cs rest hwf hb => ?_,
      fun cols row rest hsp hwfr hb => ?_, fun cols rows rest hwf hb => ?_⟩
    · cases v with
      | marker => simp only [encZ]; rfl
      | removeMarker => simp only [encZ]; rfl
      | na => simp only [encZ]; rfl
      | bool b => simp only [encZ]; rfl
      | number n unit => simp only [encZ]; rfl
      | str s => simp only [encZ]; rfl
      | ref id dis => simp only [encZ]; rfl
      | date d => simp only [encZ]; rfl
      | time t => simp only [encZ]; rfl
      | dateTime dt => simp only [encZ]; rfl
      | uri u => simp only [encZ]; rfl
      | coord lat lng => simp only [encZ]; rfl
      | xstr xtype xval => simp only [encZ]; rfl
      | symbol s => simp only [encZ]; rfl
      | list xs =>
        have hwf' : wfElems xs = true := by simpa [wfVal] using hwf
        have hb' : (encZElems xs).length ≤ f := by
          simp only [encZ, List.length_cons] at hb
          omega
        simp only [encZ, List.cons_append]
        simp only [parseZVal_lbracket, ihe xs rest hwf' hb']
      | dict es =>
        have hwf' : wfEntries es = true := by simpa [wfVal] using hwf
        have hb' : (encZEntries es).length ≤ f := by
          simp only [encZ, List.length_cons] at hb
          omega
        simp only [encZ, List.cons_append]
        simp only [parseZVal_lbrace, ihn es rest hwf' hb']
      | grid m c r =>
        simp only [wfVal, Bool.and_eq_true] at hwf
        obtain ⟨⟨hm, hc⟩, hr⟩ := hwf
        simp only [encZ, List.length_cons, List.length_append] at hb
        have hbm : (encZEntries m).length ≤ f := by omega
        have hbc : (encZCols c).length ≤ f := by omega
        have hbr : (encZRows c r).length ≤ f := by omega
        have h1 := ihn m (.nl :: (encZCols c ++ (encZRows c r ++ rest))) hm hbm
        have h2 := ihc c (encZRows c r ++ rest) hc hbc
        have h3 := ihr c r rest hr hbr
        simp only [encZ, List.cons_append, List.append_assoc]
        simp only [parseZVal_lgrid, h1, h2, h3]
    · cases xs with
      | nil =>
        obtain ⟨e, he⟩ := parseZVal_rbracket f rest
        simp only [encZElems, List.cons_append, List.nil_append]
        simp only [parseZElems_step, he]
      | cons x xs =>
        simp only [wfElems, Bool.and_eq_true] at hwf
        simp only [encZElems, List.length_append, List.length_cons] at hb
        have := encZ_len_pos x
        have := encZElems_len_pos xs
        have hbx : (encZ x).length ≤ f := by omega
        have hbxs : (encZElems xs).length ≤ f := by omega
        have h1 := ihv x (.comma :: (encZElems xs ++ rest)) hwf.1 hbx
        have h2 := ihe xs rest hwf.2 hbxs
        simp only [encZElems, List.cons_append, List.append_assoc]
        simp only [parseZElems_step, h1, h2]
    · cases es with
      | nil =>
        simp only [encZEntries, List.cons_append, List.nil_append]
        simp only [parseZEntries_rbrace]
      | cons e es =>
        obtain ⟨k, v⟩ := e
        simp only [wfEntries, Bool.and_eq_true] at hwf
        simp only [encZEntries, List.length_append, List.length_cons] at hb
        have := encZ_len_pos v
        have := encZEntries_len_pos es
        have hbv : (encZ v).length ≤ f := by omega
        have hbes : (encZEntries es).length ≤ f := by omega
        have h1 := ihv v (.comma :: (encZEntries es ++ rest)) hwf.1.2 hbv
        have h2 := ihn es rest hwf.2 hbes
        simp only [encZEntries, List.cons_append, List.append_assoc]
        simp only [parseZEntries_entry, h1, h2]
    · cases cs with
      | nil =>
        simp only [encZCols, List.cons_append, List.nil_append]
        simp only [parseZCols_nl]
      | cons col cs =>
        obtain ⟨n, meta⟩ := col
        simp only [wfCols, Bool.and_eq_true] at hwf
        simp only [encZCols, List.length_append, List.length_cons] at hb
        have := encZEntries_len_pos meta
        have := encZCols_len_pos cs
        have hbm : (encZEntries meta).length ≤ f := by omega
        have hbcs : (encZCols cs).length ≤ f := by omega
        have h1 := ihn meta (.comma :: (encZCols cs ++ rest)) hwf.1.2 hbm
        have h2 := ihc cs rest hwf.2 hbcs
        simp only [encZCols, List.cons_append, List.append_assoc]
        simp only [parseZCols_col, h1, h2]
    · cases cols with
      | nil =>
        cases row with
        | nil =>
          simp only [encZRowCells, List.nil_append]
          simp only [parseZRowCells_nil]
        | cons e es => simp [sparseRow] at hsp
      | cons c cs =>
        obtain ⟨n, cm⟩ := c
        cases row with
        | nil =>
          simp only [encZRowCells, List.length_cons] at hb
          have hbrc : (encZRowCells cs []).length ≤ f := by omega
          have hrec := ihrc cs [] rest (by simp [sparseRow]) rfl hbrc
          obtain ⟨e, he⟩ := parseZVal_empty f (.comma :: (encZRowCells cs [] ++ rest))
          simp only [encZRowCells, List.cons_append]
          simp only [parseZRowCells_cons, he, hrec]
        | cons e es =>
          obtain ⟨k, v⟩ := e
          simp only [sparseRow] at hsp
          simp only [wfEntries, Bool.and_eq_true] at hwfr
          by_cases hkn : k = n
          · rw [if_pos hkn] at hsp
            simp only [encZRowCells, if_pos hkn, List.length_append,
              List.length_cons] at hb
            have := encZ_len_pos v
            have hbv : (encZ v).length ≤ f := by omega
            have hbrc : (encZRowCells cs es).length ≤ f := by omega
            have h1 := ihv v (.comma :: (encZRowCells cs es ++ rest)) hwfr.1.2 hbv
            have h2 := ihrc cs es rest hsp hwfr.2 hbrc
            simp only [encZRowCells, if_pos hkn, List.cons_append, List.append_assoc]
            simp only [parseZRowCells_cons, h1, h2, hkn]
          · rw [if_neg hkn] at hsp
            simp only [encZRowCells, if_neg hkn, List.length_cons] at hb
            have hbrc : (encZRowCells cs ((k, v) :: es)).length ≤ f := by omega
            have hrec := ihrc cs ((k, v) :: es) rest hsp
              (by simp [wfEntries, hwfr.1.1, hwfr.1.2, hwfr.2]) hbrc
            obtain ⟨e, he⟩ := parseZVal_empty f
              (.comma :: (encZRowCells cs ((k, v) :: es) ++ rest))
            simp only [encZRowCells, if_neg hkn, List.cons_append]
            simp only [parseZRowCells_cons, he, hrec]
    · cases rows with
      | nil =>
        simp only [encZRows, List.cons_append, List.nil_append]
        simp only [parseZRows_rgrid]
      | cons r rs =>
        simp only [wfRows, Bool.and_eq_true] at hwf
        simp only [encZRows, List.length_append, List.length_cons] at hb
        have := encZRows_len_pos cols rs
        have hbr : (encZRowCells cols r).length ≤ f := by omega
        have hbrs : (encZRows cols rs).length ≤ f := by omega
        have h1 := ihrc cols r (encZRows cols rs ++ rest) hwf.1.1 hwf.1.2 hbr
        have h2 := ihr cols rs rest hwf.2 hbrs
        simp only [encZRows, List.cons_append, List.append_assoc]
        simp only [parseZRows_nl, h1, h2]

/-- C8: for every representable Grid — one satisfying the data-model
invariants (tag-name keys everywhere, row cells among the declared
columns) in wire-canonical form (each row's cells stored sparsely in
column order, as on the wire) — decoding the encoding yields the grid
back exactly (same columns in the same order, same rows in the same
order, same cell values) for both wire encodings, Hayson JSON and Zinc
text. -/
theorem grid_round_trips (g : Grid) (h : g.wf = true) :
    decodeHayson (encodeHayson g) = .ok g ∧ decodeZinc (encodeZinc g) = .ok g := by
  obtain ⟨m, c, r⟩ := g
  have hwf : wfVal (.grid m c r) = true := h
  constructor
  · have hv := (haysonAux (jsonSize (encH (.grid m c r)))).1 (.grid m c r) hwf
      (le_refl _)
    simp only [decodeHayson, encodeHayson]
    rw [hv]
  · have hz := (zincAux ((encZ (.grid m c r)).length)).1 (.grid m c r) [] hwf
      (le_refl _)
    rw [List.append_nil] at hz
    simp only [decodeZinc, encodeZinc]
    rw [hz]

/-- Witness for C8: the sample grid is representable and round-trips
through both wire encodings. -/
theorem grid_round_trips_witness :
    Grid.wf gW = true ∧ decodeHayson (encodeHayson gW) = .ok gW ∧
      decodeZinc (encodeZinc gW) = .ok gW :=
  ⟨by decide, (grid_round_trips gW (by decide)).1, (grid_round_trips gW (by decide)).2⟩

end RaystackBlocking
